import Mathlib

/-!
Verification of the document-analysis / model-selection / chunking / validation
pipeline of `backend/src/routes/summarize.ts` (and the near-duplicate route
variant in `part_001`, plus `config.ts` / `part_008` constants).

Shallow embedding conventions:
* Text is modelled as `List Char` (JS strings indexed by code units; all the
  inputs considered here are ASCII, so characters and code units coincide).
* JS regular-expression tests and global replacements used by the pipeline are
  implemented as executable scanners over `List Char`, matching the semantics
  of the concrete patterns that appear in the source.
* JS `number` division inside `validateSummaryCompleteness` only ever divides
  list lengths; it is modelled exactly by `JSNum` (rational value, `+Infinity`
  for `n/0` with `n > 0`, `NaN` for `0/0`), with `NaN >= c` evaluating to
  `false` as in IEEE / JS.
* The signal counters of `analyzeDocument` (regex match counts and boolean
  regex tests over the raw text) are gathered in a `TextSignals` record; the
  decision logic of `analyzeDocument` / `selectModel` is embedded verbatim on
  top of those signals, so theorems quantifying over all signal records cover
  every possible input text.
* The summarization backend (`callHuggingFaceAPI`), the prompt builder
  (`createPrompt`) and the checkpoint extractor (`extractKeyInformation`) are
  opaque collaborators of `generateEnhancedSummary`; the embedding takes them
  as parameters and the theorems quantify over them, which makes the results
  strictly stronger than statements about the concrete instantiations.
-/

namespace Summarize

/-! ## Document analysis (`analyzeDocument`, summarize.ts lines 178-245) -/

/-- `DocumentAnalysis.type` in summarize.ts (line 126). -/
inductive DocType where
  | research | technical | article | general | business
deriving DecidableEq, Repr

/-- `DocumentAnalysis.complexity` (line 127). -/
inductive Complexity where
  | high | medium | low
deriving DecidableEq, Repr

/-- `DocumentAnalysis.length` (line 128). -/
inductive LengthBucket where
  | short | medium | long
deriving DecidableEq, Repr

/-- `DocumentAnalysis.domain` (line 132). -/
inductive Domain where
  | technology | finance | management | general_business
deriving DecidableEq, Repr

/-- The `DocumentAnalysis` record returned by `analyzeDocument`
(summarize.ts lines 125-133).  `domain` is optional in the TS interface but
`analyzeDocument` always assigns it, so it is a plain field here. -/
structure DocumentAnalysis where
  type : DocType
  complexity : Complexity
  length : LengthBucket
  hasEquations : Bool
  hasCitations : Bool
  hasCode : Bool
  domain : Domain
deriving DecidableEq, Repr

/-- The regex-derived signals that `analyzeDocument` (lines 187-200) computes
from the raw text before taking any decision: match counts of the four term
alternations, the boolean structural-marker tests, and `text.length`.
Quantifying over this record quantifies over every input text. -/
structure TextSignals where
  businessScore : Nat
  techScore : Nat
  managementScore : Nat
  financeScore : Nat
  hasAbstract : Bool
  hasMethodology : Bool
  hasResults : Bool
  hasConclusion : Bool
  hasReferences : Bool
  hasCitations : Bool
  hasEquations : Bool
  hasCode : Bool
  textLength : Nat
deriving DecidableEq, Repr

/-- Lines 203-212: domain from term frequency.  `Object.entries(scores)`
iterates the keys in insertion order `technology, finance, management`, and
`find` returns the first entry whose score equals the maximum. -/
def pickDomain (s : TextSignals) : Domain :=
  let maxScore := max s.techScore (max s.financeScore s.managementScore)
  if maxScore > 2 then
    if s.techScore = maxScore then Domain.technology
    else if s.financeScore = maxScore then Domain.finance
    else Domain.management
  else Domain.general_business

/-- Lines 215-221: `complexityScore` = number of `true`s among
`[hasEquations, hasCitations, hasCode, hasMethodology, hasResults]`. -/
def complexityScore (s : TextSignals) : Nat :=
  [s.hasEquations, s.hasCitations, s.hasCode, s.hasMethodology,
    s.hasResults].countP (fun b => b)

/-- `analyzeDocument` (summarize.ts lines 178-245), decision part, taken
verbatim over the extracted signals. -/
def analyzeDocument (s : TextSignals) : DocumentAnalysis :=
  let complexity :=
    if complexityScore s ≥ 3 then Complexity.high
    else if complexityScore s ≥ 1 then Complexity.medium
    else Complexity.low
  let length :=
    if s.textLength > 10000 then LengthBucket.long
    else if s.textLength > 3000 then LengthBucket.medium
    else LengthBucket.short
  let type :=
    if s.businessScore > 3 then DocType.business
    else if s.hasAbstract && s.hasMethodology && s.hasResults &&
        s.hasReferences then DocType.research
    else if s.hasCode || s.hasEquations ||
        decide (complexity = Complexity.high) then DocType.technical
    else if s.hasAbstract || s.hasCitations then DocType.article
    else DocType.general
  { type := type
    complexity := complexity
    length := length
    hasEquations := s.hasEquations
    hasCitations := s.hasCitations
    hasCode := s.hasCode
    domain := pickDomain s }

/-! Spec-side rendering of the classification rules, written from the words of
the claim (spec §4.2), to be compared with the source embedding above. -/

/-- Modelled from the spec: complexity is high iff at least 3 of
{equations, citations, code, methodology, results} are present, medium iff at
least 1, else low. -/
def specComplexity (s : TextSignals) : Complexity :=
  let present := (if s.hasEquations then 1 else 0) + (if s.hasCitations then 1 else 0)
    + (if s.hasCode then 1 else 0) + (if s.hasMethodology then 1 else 0)
    + (if s.hasResults then 1 else 0)
  if 3 ≤ present then Complexity.high
  else if 1 ≤ present then Complexity.medium
  else Complexity.low

/-- Modelled from the spec: long iff the text exceeds 10000 characters,
medium iff it exceeds 3000, else short. -/
def specLength (s : TextSignals) : LengthBucket :=
  if 10000 < s.textLength then LengthBucket.long
  else if 3000 < s.textLength then LengthBucket.medium
  else LengthBucket.short

/-- Modelled from the spec: fixed priority order, first match wins:
business if business-term count > 3; else research if abstract, methodology,
results and references are all present; else technical if code or equations
are present or complexity is high; else article if an abstract or citations
are present; else general. -/
def specType (s : TextSignals) : DocType :=
  if 3 < s.businessScore then DocType.business
  else if s.hasAbstract = true ∧ s.hasMethodology = true ∧ s.hasResults = true
      ∧ s.hasReferences = true then DocType.research
  else if s.hasCode = true ∨ s.hasEquations = true
      ∨ specComplexity s = Complexity.high then DocType.technical
  else if s.hasAbstract = true ∨ s.hasCitations = true then DocType.article
  else DocType.general

/-! ## Model selection (`selectModel`, summarize.ts lines 401-417) and the
configuration table (`MODEL_CONFIGS`, lines 56-107). -/

/-- `ModelConfig` (summarize.ts lines 19-28); the float-valued generation
parameters are exact decimal constants, modelled as rationals. -/
structure ModelConfig where
  url : String
  maxLength : Nat
  minLength : Nat
  temperature : ℚ
  numBeams : Nat
  lengthPenalty : ℚ
  repetitionPenalty : ℚ
  bestFor : List String
deriving DecidableEq, Repr

/-- `MODEL_CONFIGS` (lines 56-107), in JS object-literal insertion order. -/
def MODEL_CONFIGS : List (String × ModelConfig) :=
  [ ("FLAN-T5-XL",
      { url := "google/flan-t5-base", maxLength := 1024, minLength := 200,
        temperature := 3/10, numBeams := 8, lengthPenalty := 2,
        repetitionPenalty := 3/2,
        bestFor := ["technical", "scientific", "short", "business"] }),
    ("BART-LARGE-CNN",
      { url := "facebook/bart-base", maxLength := 1024, minLength := 250,
        temperature := 2/5, numBeams := 6, lengthPenalty := 11/5,
        repetitionPenalty := 7/5,
        bestFor := ["news", "articles", "medium"] }),
    ("LED-BASE-16384",
      { url := "allenai/led-base-16384", maxLength := 16384, minLength := 400,
        temperature := 3/10, numBeams := 10, lengthPenalty := 5/2,
        repetitionPenalty := 9/5,
        bestFor := ["research", "long", "technical"] }),
    ("PEGASUS-LARGE",
      { url := "google/pegasus-base", maxLength := 1024, minLength := 150,
        temperature := 2/5, numBeams := 8, lengthPenalty := 2,
        repetitionPenalty := 8/5,
        bestFor := ["scientific", "medium", "structured"] }),
    ("T5-LARGE",
      { url := "t5-base", maxLength := 1024, minLength := 200,
        temperature := 3/10, numBeams := 8, lengthPenalty := 2,
        repetitionPenalty := 3/2,
        bestFor := ["verification", "cross-check"] }) ]

/-- The five configured model names, in configuration order. -/
def modelNames : List String := MODEL_CONFIGS.map Prod.fst

/-- `selectModel` (summarize.ts lines 401-417).  The `type : 'text'|'url'|'file'`
parameter of the source function is unused by its body and omitted here. -/
def selectModel (s : TextSignals) : String :=
  let analysis := analyzeDocument s
  if analysis.type = DocType.research ∨ analysis.length = LengthBucket.long then
    "LED-BASE-16384"
  else if analysis.type = DocType.technical ∨ analysis.complexity = Complexity.high then
    "FLAN-T5-XL"
  else if analysis.type = DocType.article ∧ analysis.length = LengthBucket.medium then
    "BART-LARGE-CNN"
  else
    "PEGASUS-LARGE"

/-! ## Completeness validation (`validateSummaryCompleteness`,
summarize.ts lines 550-561) -/

/-- `ContentCheckpoint` (summarize.ts lines 465-471). -/
structure ContentCheckpoint where
  key_points : List String
  entities : List String
  relationships : List String
  metrics : List String
  context : List String
deriving DecidableEq, Repr

/-- The result of a JS `number` division of two list lengths: a rational when
the divisor is nonzero, `+Infinity` for `n/0` with `n > 0`, `NaN` for `0/0`. -/
inductive JSNum where
  | nan : JSNum
  | posInf : JSNum
  | val : ℚ → JSNum
deriving DecidableEq, Repr

/-- JS division `a / b` of the two (nonnegative integer) lengths. -/
def jsDiv (a b : Nat) : JSNum :=
  if b = 0 then (if a = 0 then JSNum.nan else JSNum.posInf)
  else JSNum.val ((a : ℚ) / (b : ℚ))

/-- JS comparison `x >= c` for a positive rational constant `c`:
`NaN >= c` is `false`, `Infinity >= c` is `true`. -/
def jsGe (x : JSNum) (c : ℚ) : Bool :=
  match x with
  | JSNum.nan => false
  | JSNum.posInf => true
  | JSNum.val r => decide (c ≤ r)

/-- `validateSummaryCompleteness` (summarize.ts lines 550-561): the three
coverage ratios `summary.length / original.length` for key points, entities
and metrics must each be `>= 0.7`; relationships and context are not used. -/
def validateSummaryCompleteness (originalCheckpoint summaryCheckpoint : ContentCheckpoint) : Bool :=
  let keyPointsCoverage := jsDiv summaryCheckpoint.key_points.length originalCheckpoint.key_points.length
  let entitiesCoverage := jsDiv summaryCheckpoint.entities.length originalCheckpoint.entities.length
  let metricsCoverage := jsDiv summaryCheckpoint.metrics.length originalCheckpoint.metrics.length
  jsGe keyPointsCoverage (7/10) && jsGe entitiesCoverage (7/10) && jsGe metricsCoverage (7/10)

end Summarize

namespace Summarize

/-! ## Theorems for claims C1, C2, C9, C6, C7 -/

/-- C1: for every input text (every outcome of the signal counters), the
classifier assigns the document type by the fixed priority order — business if
the business-term count exceeds 3, otherwise research if abstract, methodology,
results and references are all present, otherwise technical if code or
equations are present or complexity is high, otherwise article if an abstract
or citations are present, otherwise general — with complexity high iff at
least 3 of {equations, citations, code, methodology, results} are present,
medium iff at least 1, else low, and the length bucket long iff the text
exceeds 10000 characters, medium iff it exceeds 3000, else short. -/
theorem analyzeDocument_follows_spec_priority (s : TextSignals) :
    (analyzeDocument s).type = specType s ∧
    (analyzeDocument s).complexity = specComplexity s ∧
    (analyzeDocument s).length = specLength s := by
  obtain ⟨bs, ts, ms, fs, ab, me, re, co, rf, ci, eq, cd, len⟩ := s
  refine ⟨?_, ?_, ?_⟩ <;>
    cases ab <;> cases me <;> cases re <;> cases rf <;> cases ci <;> cases eq <;> cases cd <;>
      simp [analyzeDocument, specType, specComplexity, specLength, complexityScore]

/-- C2: model selection is a total function of the classified document — for
every signal record, `selectModel` returns exactly one model name that is a key
of `MODEL_CONFIGS` (so every document maps to exactly one model profile and
selection never raises), and the routing is: research-type or long-length
documents map to LED-BASE-16384; otherwise technical-type or high-complexity
documents map to FLAN-T5-XL; otherwise medium-length article-type documents
map to BART-LARGE-CNN; every remaining document maps to PEGASUS-LARGE. -/
theorem selectModel_total_routing (s : TextSignals) :
    (MODEL_CONFIGS.lookup (selectModel s)).isSome = true ∧
    (selectModel s = "LED-BASE-16384" ↔
      ((analyzeDocument s).type = DocType.research ∨
        (analyzeDocument s).length = LengthBucket.long)) ∧
    (selectModel s = "FLAN-T5-XL" ↔
      (¬((analyzeDocument s).type = DocType.research ∨
          (analyzeDocument s).length = LengthBucket.long) ∧
        ((analyzeDocument s).type = DocType.technical ∨
          (analyzeDocument s).complexity = Complexity.high))) ∧
    (selectModel s = "BART-LARGE-CNN" ↔
      (¬((analyzeDocument s).type = DocType.research ∨
          (analyzeDocument s).length = LengthBucket.long) ∧
        ¬((analyzeDocument s).type = DocType.technical ∨
          (analyzeDocument s).complexity = Complexity.high) ∧
        ((analyzeDocument s).type = DocType.article ∧
          (analyzeDocument s).length = LengthBucket.medium))) ∧
    (selectModel s = "PEGASUS-LARGE" ↔
      (¬((analyzeDocument s).type = DocType.research ∨
          (analyzeDocument s).length = LengthBucket.long) ∧
        ¬((analyzeDocument s).type = DocType.technical ∨
          (analyzeDocument s).complexity = Complexity.high) ∧
        ¬((analyzeDocument s).type = DocType.article ∧
          (analyzeDocument s).length = LengthBucket.medium))) := by
  unfold selectModel
  dsimp only
  split_ifs with h1 h2 h3 <;>
    refine ⟨by decide, ?_, ?_, ?_, ?_⟩ <;>
      simp_all

/-- Signal record extracted by `analyzeDocument` from a short (~700 chars)
cover letter: salutation ("Dear Hiring Manager,"), closing ("Sincerely,") and
application-context phrases ("I am applying for the position ...") are all
present in the text, but none of them is a signal the classifier reads.  The
word "for" in the body makes the keyword regex behind `hasCode` (line 200)
fire; all structural markers are absent and the term counters stay below
their thresholds. -/
def coverLetterShortSignals : TextSignals :=
  { businessScore := 2, techScore := 0, managementScore := 1, financeScore := 0,
    hasAbstract := false, hasMethodology := false, hasResults := false,
    hasConclusion := false, hasReferences := false, hasCitations := false,
    hasEquations := false, hasCode := true, textLength := 700 }

/-- The same cover letter padded with narrative to 12000 characters: the
cover-letter markers are unchanged, only `text.length` differs. -/
def coverLetterLongSignals : TextSignals :=
  { coverLetterShortSignals with textLength := 12000 }

/-- C9 counterexample: two documents that both carry all cover-letter markers
(salutation, closing, application-context phrases) are routed to different
profiles depending on their length — the long one to LED-BASE-16384 (the
long-form profile, the largest `maxLength`/`minLength` in `MODEL_CONFIGS`)
and the short one to FLAN-T5-XL — so no override returns a single profile
tuned for shorter output "regardless of the document's length". -/
theorem selectModel_no_cover_letter_override_counterexample :
    selectModel coverLetterShortSignals = "FLAN-T5-XL" ∧
    selectModel coverLetterLongSignals = "LED-BASE-16384" ∧
    selectModel coverLetterShortSignals ≠ selectModel coverLetterLongSignals := by
  refine ⟨by decide, by decide, by decide⟩

/-- C9 amended: `selectModel` has no cover-letter override — the
`DocumentAnalysis` record carries no cover-letter information at all, and
selection is a function of the classified {type, complexity, length} triple
alone, so any two documents agreeing on that triple (whether or not their
text contains salutation/closing/application phrases) are routed to the same
profile, and a long cover letter is routed to the long-form profile. -/
theorem selectModel_ignores_cover_letter_markers (s₁ s₂ : TextSignals)
    (ht : (analyzeDocument s₁).type = (analyzeDocument s₂).type)
    (hc : (analyzeDocument s₁).complexity = (analyzeDocument s₂).complexity)
    (hl : (analyzeDocument s₁).length = (analyzeDocument s₂).length) :
    selectModel s₁ = selectModel s₂ := by
  unfold selectModel
  dsimp only
  rw [ht, hc, hl]

/-- Witness for C9's amended theorem: the short cover-letter signals and a
variant with a different (unread) finance counter classify identically, hence
select the same model. -/
theorem selectModel_ignores_cover_letter_markers_witness :
    ((analyzeDocument coverLetterShortSignals).type =
        (analyzeDocument { coverLetterShortSignals with financeScore := 2 }).type) ∧
    selectModel coverLetterShortSignals =
      selectModel { coverLetterShortSignals with financeScore := 2 } :=
  ⟨by decide,
    selectModel_ignores_cover_letter_markers coverLetterShortSignals
      { coverLetterShortSignals with financeScore := 2 }
      (by decide) (by decide) (by decide)⟩

/-- A source checkpoint with ten extracted items in each scored category. -/
def srcCheckpointTen : ContentCheckpoint :=
  { key_points := List.replicate 10 "kp", entities := List.replicate 10 "en",
    relationships := [], metrics := List.replicate 10 "mt", context := [] }

/-- A candidate-summary checkpoint covering 5 of 10 key points, 8 of 10
entities and 9 of 10 metrics. -/
def sumCheckpoint589 : ContentCheckpoint :=
  { key_points := List.replicate 5 "kp", entities := List.replicate 8 "en",
    relationships := [], metrics := List.replicate 9 "mt", context := [] }

/-- C6: `validateSummaryCompleteness` returns true iff the key-point, entity
and metric coverage ratios (summary category count divided by source category
count, with JS `0/0 = NaN` and `n/0 = Infinity` semantics) are each at least
0.7; the relationships and context categories never affect the result; and on
a candidate covering 0.5 of key points, 0.8 of entities and 0.9 of metrics it
returns false. -/
theorem validateSummaryCompleteness_iff_ratios
    (o s : ContentCheckpoint) (r₁ r₂ c₁ c₂ : List String) :
    (validateSummaryCompleteness o s = true ↔
      (jsGe (jsDiv s.key_points.length o.key_points.length) (7/10) = true ∧
        jsGe (jsDiv s.entities.length o.entities.length) (7/10) = true ∧
        jsGe (jsDiv s.metrics.length o.metrics.length) (7/10) = true)) ∧
    validateSummaryCompleteness
        { o with relationships := r₁, context := c₁ }
        { s with relationships := r₂, context := c₂ } =
      validateSummaryCompleteness o s ∧
    validateSummaryCompleteness srcCheckpointTen sumCheckpoint589 = false := by
  refine ⟨?_, rfl, ?_⟩
  · simp [validateSummaryCompleteness, Bool.and_eq_true, and_assoc]
  · simp only [validateSummaryCompleteness, srcCheckpointTen, sumCheckpoint589,
      jsDiv, jsGe, List.length_replicate]
    norm_num

/-- C7 counterexample: a source checkpoint whose scored categories are all
empty (as `extractKeyInformation` produces for an empty source text) together
with a summary checkpoint that is also empty — nothing to cover — makes
`validateSummaryCompleteness` return `false` (each ratio is JS `0/0 = NaN`,
and `NaN >= 0.7` is false), so an empty source category is not treated as
vacuously satisfied. -/
theorem validate_empty_source_counterexample :
    validateSummaryCompleteness
      { key_points := [], entities := [], relationships := [],
        metrics := [], context := [] }
      { key_points := [], entities := [], relationships := [],
        metrics := [], context := [] } = false := by
  decide

/-- C7 amended: `validateSummaryCompleteness` is a total function (JS division
never throws); a scored category that is empty in the source is satisfied iff
the summary's same category is nonempty (ratio `+Infinity`), while an empty
source category with an empty summary category yields `NaN` and fails the
`>= 0.7` comparison — so an empty source category does cause `validate` to
return `false` exactly when the summary's category is also empty. -/
theorem validate_empty_source_characterization (o s : ContentCheckpoint) :
    validateSummaryCompleteness o s = true ↔
      (((o.key_points = [] → s.key_points ≠ []) ∧
          (o.key_points ≠ [] →
            (7/10 : ℚ) ≤ (s.key_points.length : ℚ) / (o.key_points.length : ℚ))) ∧
        ((o.entities = [] → s.entities ≠ []) ∧
          (o.entities ≠ [] →
            (7/10 : ℚ) ≤ (s.entities.length : ℚ) / (o.entities.length : ℚ))) ∧
        ((o.metrics = [] → s.metrics ≠ []) ∧
          (o.metrics ≠ [] →
            (7/10 : ℚ) ≤ (s.metrics.length : ℚ) / (o.metrics.length : ℚ)))) := by
  have key : ∀ (xs ys : List String),
      jsGe (jsDiv ys.length xs.length) (7/10) = true ↔
        ((xs = [] → ys ≠ []) ∧
          (xs ≠ [] → (7/10 : ℚ) ≤ (ys.length : ℚ) / (xs.length : ℚ))) := by
    intro xs ys
    unfold jsDiv jsGe
    rcases xs with - | ⟨x, xs⟩ <;> rcases ys with - | ⟨y, ys⟩ <;>
      simp
  simp [validateSummaryCompleteness, Bool.and_eq_true, key, and_assoc]

/-! ## Enhanced summary generation (`generateEnhancedSummary`,
summarize.ts lines 564-631) -/

/-- The `type : 'text' | 'url' | 'file'` source kind. -/
inductive SourceType where
  | text | url | file
deriving DecidableEq, Repr

/-- The generation-parameter object passed to `callHuggingFaceAPI`
(summarize.ts lines 579-589). -/
structure GenParams where
  max_length : Nat
  min_length : Nat
  temperature : ℚ
  num_beams : Nat
  length_penalty : ℚ
  repetition_penalty : ℚ
  do_sample : Bool
  top_p : ℚ
  no_repeat_ngram_size : Nat
deriving DecidableEq, Repr

/-- The parameters built from a model's configuration (lines 580-589). -/
def paramsOf (config : ModelConfig) : GenParams :=
  { max_length := config.maxLength, min_length := config.minLength,
    temperature := config.temperature, num_beams := config.numBeams,
    length_penalty := config.lengthPenalty,
    repetition_penalty := config.repetitionPenalty,
    do_sample := true, top_p := 19/20, no_repeat_ngram_size := 3 }

/-- One element of the `summaries` array (lines 594-599). -/
structure Attempt where
  modelName : String
  summary : String
  isComplete : Bool
  checkpoint : ContentCheckpoint
deriving DecidableEq, Repr

/-- `Object.keys(checkpoint).length` (lines 620-621): a `ContentCheckpoint`
object always has exactly its five interface properties. -/
def checkpointKeyCount (_ : ContentCheckpoint) : Nat := 5

/-- The `reduce` callback (lines 615-625).  `best` is never `null`: `reduce`
without an initial value starts from the first element of the already
null-filtered array, so the `!best` test is constant false. -/
def reduceStep (best current : Attempt) : Attempt :=
  if current.isComplete && !best.isComplete then current
  else if best.isComplete = current.isComplete then
    (if checkpointKeyCount current.checkpoint > checkpointKeyCount best.checkpoint
      then current else best)
  else best

/-- JS `a || b` for strings: `b` when `a` is the (falsy) empty string. -/
def jsOrS (a b : String) : String := if a = "" then b else a

/-- The `summaries` array (lines 572-605): one backend attempt per entry of
`MODEL_CONFIGS`, each invoked on the full prompted text with the entry's
generation parameters; `none` models the `catch` branch mapping a failed
attempt to `null`.  `extract` abstracts `extractKeyInformation`, `mkPrompt`
abstracts `createPrompt`, `backend` abstracts `callHuggingFaceAPI`; the source
computes `extract text` once before the loop, which is the same value. -/
def modelAttempts (extract : String → ContentCheckpoint)
    (mkPrompt : String → DocumentAnalysis → String)
    (backend : String → String → GenParams → Option String)
    (text : String) (analysis : DocumentAnalysis) : List (Option Attempt) :=
  MODEL_CONFIGS.map fun p =>
    (backend p.1 (mkPrompt text analysis) (paramsOf p.2)).map fun summary =>
      { modelName := p.1, summary := summary,
        isComplete := validateSummaryCompleteness (extract text) (extract summary),
        checkpoint := extract summary }

/-- `validSummaries` (line 608): the non-null attempts, in configuration
order. -/
def validAttempts (analyze : String → TextSignals)
    (extract : String → ContentCheckpoint)
    (mkPrompt : String → DocumentAnalysis → String)
    (backend : String → String → GenParams → Option String)
    (text : String) : List Attempt :=
  (modelAttempts extract mkPrompt backend text
    (analyzeDocument (analyze text))).filterMap id

/-- `generateEnhancedSummary` (summarize.ts lines 564-631), returning
`(summary, modelUsed)` or the thrown error message.  `analyze` abstracts the
regex signal extraction feeding `analyzeDocument`/`selectModel`.  The
`selectedModel` computed at line 569 (with the `'file'` override) is bound
and, exactly as in the source, never used afterwards. -/
def generateEnhancedSummary (analyze : String → TextSignals)
    (extract : String → ContentCheckpoint)
    (mkPrompt : String → DocumentAnalysis → String)
    (backend : String → String → GenParams → Option String)
    (text : String) (type : SourceType) : Except String (String × String) :=
  let _selectedModel : String :=
    if type = SourceType.file then "LED-BASE-16384" else selectModel (analyze text)
  match validAttempts analyze extract mkPrompt backend text with
  | [] => Except.error "All summary generation attempts failed"
  | best0 :: rest =>
    let bestSummary := rest.foldl reduceStep best0
    Except.ok (jsOrS bestSummary.summary best0.summary,
      jsOrS bestSummary.modelName best0.modelName)

/-- The attempt the completeness comparison elects: the first complete valid
attempt if one exists, otherwise the first valid attempt. -/
def firstCompleteElse (best0 : Attempt) (rest : List Attempt) : Attempt :=
  match (best0 :: rest).find? (fun a => a.isComplete) with
  | some a => a
  | none => best0

/-- A complete starting attempt is never displaced by the reduce. -/
lemma foldl_reduceStep_of_complete (l : List Attempt) (b : Attempt)
    (hb : b.isComplete = true) : l.foldl reduceStep b = b := by
  induction l with
  | nil => rfl
  | cons c l ih =>
    have hstep : reduceStep b c = b := by
      unfold reduceStep checkpointKeyCount
      simp [hb]
    simpa [hstep] using ih

/-- The reduce elects the first complete attempt, else keeps the start. -/
lemma foldl_reduceStep_eq_find (l : List Attempt) (b : Attempt)
    (hb : b.isComplete = false) :
    l.foldl reduceStep b =
      (match l.find? (fun a => a.isComplete) with
        | some a => a
        | none => b) := by
  induction l generalizing b with
  | nil => rfl
  | cons c l ih =>
    by_cases hc : c.isComplete = true
    · have hstep : reduceStep b c = c := by
        unfold reduceStep
        simp [hb, hc]
      simp [List.foldl_cons, hstep, List.find?_cons, hc,
        foldl_reduceStep_of_complete l c hc]
    · have hc' : c.isComplete = false := by simpa using hc
      have hstep : reduceStep b c = b := by
        unfold reduceStep checkpointKeyCount
        simp [hb, hc']
      simp [List.foldl_cons, hstep, List.find?_cons, hc', ih b hb]

/-- The reduce over the valid attempts equals `firstCompleteElse`. -/
lemma foldl_reduceStep_eq_firstCompleteElse (best0 : Attempt) (rest : List Attempt) :
    rest.foldl reduceStep best0 = firstCompleteElse best0 rest := by
  by_cases hb : best0.isComplete = true
  · simp [firstCompleteElse, List.find?_cons, hb,
      foldl_reduceStep_of_complete rest best0 hb]
  · have hb' : best0.isComplete = false := by simpa using hb
    simp [firstCompleteElse, List.find?_cons, hb',
      foldl_reduceStep_eq_find rest best0 hb']

/-- Every valid attempt is named after one of the five configured models. -/
lemma validAttempts_modelName_mem (analyze : String → TextSignals)
    (extract : String → ContentCheckpoint)
    (mkPrompt : String → DocumentAnalysis → String)
    (backend : String → String → GenParams → Option String)
    (text : String) (a : Attempt)
    (ha : a ∈ validAttempts analyze extract mkPrompt backend text) :
    a.modelName ∈ modelNames := by
  unfold validAttempts modelAttempts at ha
  rw [List.mem_filterMap] at ha
  obtain ⟨o, ho, hoa⟩ := ha
  rw [List.mem_map] at ho
  obtain ⟨p, hp, rfl⟩ := ho
  simp only [id_eq, Option.map_eq_some'] at hoa
  obtain ⟨s, hs, rfl⟩ := hoa
  exact List.mem_map.mpr ⟨p, hp, rfl⟩

/-- No valid attempts exist iff the backend failed on every configured model. -/
lemma validAttempts_eq_nil_iff (analyze : String → TextSignals)
    (extract : String → ContentCheckpoint)
    (mkPrompt : String → DocumentAnalysis → String)
    (backend : String → String → GenParams → Option String)
    (text : String) :
    validAttempts analyze extract mkPrompt backend text = [] ↔
      ∀ p ∈ MODEL_CONFIGS,
        backend p.1 (mkPrompt text (analyzeDocument (analyze text)))
          (paramsOf p.2) = none := by
  unfold validAttempts modelAttempts
  rw [List.filterMap_eq_nil_iff]
  constructor
  · intro h p hp
    have := h _ (List.mem_map.mpr ⟨p, hp, rfl⟩)
    simpa [Option.map_eq_none'] using this
  · intro h a ha
    rw [List.mem_map] at ha
    obtain ⟨p, hp, rfl⟩ := ha
    simp [Option.map_eq_none', h p hp]

/-- None of the five configured model names is the empty string. -/
lemma modelNames_ne_empty : ∀ n ∈ modelNames, n ≠ "" := by decide

/-- C3: `generateEnhancedSummary` invokes the backend once per each of the
five configured model profiles on the full prompted text, whatever the source
kind — the model computed via `selectModel` (or the `'file'` override) does
not restrict which backends are called (the result is independent of the
source kind); it throws exactly the error "All summary generation attempts
failed", and does so precisely when every one of the five model attempts
fails (so a single model's failure is tolerated and filtered out); and when
some attempt survives, the returned `modelUsed` is the model elected by the
completeness comparison — the first complete valid attempt, or the first
valid attempt when none is complete. -/
theorem generateEnhancedSummary_fanout_and_failure
    (analyze : String → TextSignals) (extract : String → ContentCheckpoint)
    (mkPrompt : String → DocumentAnalysis → String)
    (backend : String → String → GenParams → Option String)
    (text : String) (ty ty' : SourceType) :
    (generateEnhancedSummary analyze extract mkPrompt backend text ty =
      generateEnhancedSummary analyze extract mkPrompt backend text ty') ∧
    (generateEnhancedSummary analyze extract mkPrompt backend text ty =
        Except.error "All summary generation attempts failed" ↔
      ∀ p ∈ MODEL_CONFIGS,
        backend p.1 (mkPrompt text (analyzeDocument (analyze text)))
          (paramsOf p.2) = none) ∧
    (∀ e, generateEnhancedSummary analyze extract mkPrompt backend text ty =
        Except.error e → e = "All summary generation attempts failed") ∧
    (∀ best0 rest,
      validAttempts analyze extract mkPrompt backend text = best0 :: rest →
      generateEnhancedSummary analyze extract mkPrompt backend text ty =
        Except.ok (jsOrS (firstCompleteElse best0 rest).summary best0.summary,
          (firstCompleteElse best0 rest).modelName)) := by
  refine ⟨rfl, ?_, ?_, ?_⟩
  · rw [← validAttempts_eq_nil_iff analyze extract mkPrompt backend text]
    unfold generateEnhancedSummary
    cases h : validAttempts analyze extract mkPrompt backend text with
    | nil => simp [h]
    | cons b0 rest => simp [h]
  · intro e he
    unfold generateEnhancedSummary at he
    cases h : validAttempts analyze extract mkPrompt backend text with
    | nil => rw [h] at he; simpa using he.symm
    | cons b0 rest => rw [h] at he; simp at he
  · intro best0 rest h
    have hw : (firstCompleteElse best0 rest).modelName ≠ "" := by
      apply modelNames_ne_empty
      apply validAttempts_modelName_mem analyze extract mkPrompt backend text
      rw [h]
      unfold firstCompleteElse
      cases hf : (best0 :: rest).find? (fun a => a.isComplete) with
      | none => exact List.mem_cons_self _ _
      | some a => exact List.mem_of_find?_eq_some hf
    unfold generateEnhancedSummary
    rw [h]
    dsimp only
    rw [foldl_reduceStep_eq_firstCompleteElse]
    have : jsOrS (firstCompleteElse best0 rest).modelName best0.modelName =
        (firstCompleteElse best0 rest).modelName := by
      unfold jsOrS
      rw [if_neg hw]
    rw [this]

/-- Concrete signal oracle for the C3 witness. -/
def wAnalyze : String → TextSignals := fun _ => coverLetterShortSignals

/-- Concrete checkpoint oracle for the C3 witness. -/
def wExtract : String → ContentCheckpoint :=
  fun _ => { key_points := [], entities := [], relationships := [],
             metrics := [], context := [] }

/-- Concrete prompt oracle for the C3 witness. -/
def wPrompt : String → DocumentAnalysis → String := fun t _ => t

/-- Concrete backend for the C3 witness: FLAN-T5-XL fails, every other model
echoes its own name as summary. -/
def wBackend : String → String → GenParams → Option String :=
  fun n _ _ => if n = "FLAN-T5-XL" then none else some n

/-- The attempt produced by `wBackend` for model `n`. -/
def wAtt (n : String) : Attempt :=
  { modelName := n, summary := n, isComplete := false,
    checkpoint := { key_points := [], entities := [], relationships := [],
                    metrics := [], context := [] } }

/-- Witness for C3: with FLAN-T5-XL failing and the other four models
succeeding, the valid attempts are the four survivors in configuration order
and the summary returned is the first valid attempt's (none is complete). -/
theorem generateEnhancedSummary_fanout_and_failure_witness :
    validAttempts wAnalyze wExtract wPrompt wBackend "doc" =
      [wAtt "BART-LARGE-CNN", wAtt "LED-BASE-16384",
        wAtt "PEGASUS-LARGE", wAtt "T5-LARGE"] ∧
    generateEnhancedSummary wAnalyze wExtract wPrompt wBackend "doc"
        SourceType.text =
      Except.ok ("BART-LARGE-CNN", "BART-LARGE-CNN") :=
  ⟨by decide,
    ((generateEnhancedSummary_fanout_and_failure wAnalyze wExtract wPrompt
        wBackend "doc" SourceType.text SourceType.text).2.2.2
      (wAtt "BART-LARGE-CNN")
      [wAtt "LED-BASE-16384", wAtt "PEGASUS-LARGE", wAtt "T5-LARGE"]
      (by decide)).trans (by rfl)⟩

/-! ## Text chunking (`chunkText`, summarize.ts lines 420-462;
`CHUNK_SIZE = 10000` and `OVERLAP_SIZE = 1000` from `config.ts`).

JS string indices can be negative intermediate values
(`startIndex = endIndex - OVERLAP_SIZE`), so loop indices are `Int` and
`slice` is JS `String.prototype.slice` with negative-index wraparound and
clamping. -/

/-- `CONFIG.CHUNK_SIZE` (config.ts). -/
def CHUNK_SIZE : Nat := 10000

/-- `CONFIG.OVERLAP_SIZE` (config.ts). -/
def OVERLAP_SIZE : Nat := 1000

/-- The JS `\s` whitespace class, restricted to its ASCII members (all texts
in this development are ASCII). -/
def isJsWs (c : Char) : Bool :=
  c = ' ' || c = '\t' || c = '\n' || c = '\r' ||
    c = Char.ofNat 11 || c = Char.ofNat 12

/-- JS `String.prototype.trim`: whitespace stripped from both ends. -/
def trimChars (l : List Char) : List Char :=
  ((l.dropWhile isJsWs).reverse.dropWhile isJsWs).reverse

/-- Resolution of one JS `slice` index: negative indices count from the end,
both directions clamp to `[0, len]`. -/
def jsIdx (len : Nat) (i : Int) : Nat :=
  if i < 0 then ((len : Int) + i).toNat else min i.toNat len

/-- JS `text.slice(a, b)` on a character list. -/
def jsSlice (l : List Char) (a b : Int) : List Char :=
  let s := jsIdx l.length a
  let e := jsIdx l.length b
  (l.drop s).take (e - s)

/-- The sentence terminators of the chunking regex `[^.!?]+[.!?]+`. -/
def isSentTerm (c : Char) : Bool := c = '.' || c = '!' || c = '?'

/-- Dropping a prefix never lengthens a list. -/
lemma length_dropWhile_le' {α : Type} (p : α → Bool) (l : List α) :
    (l.dropWhile p).length ≤ l.length := by
  induction l with
  | nil => simp
  | cons a l ih =>
    by_cases hp : p a
    · rw [List.dropWhile_cons_of_pos hp]
      exact Nat.le_succ_of_le ih
    · rw [List.dropWhile_cons_of_neg (by simpa using hp)]

/-- The head of a `dropWhile` residue falsifies the predicate. -/
lemma dropWhile_cons_head_eq_false {α : Type} (p : α → Bool) :
    ∀ (l : List α) (c : α) (t : List α), l.dropWhile p = c :: t → p c = false := by
  intro l
  induction l with
  | nil => intro c t h; simp at h
  | cons a l ih =>
    intro c t h
    by_cases hp : p a
    · rw [List.dropWhile_cons_of_pos hp] at h
      exact ih c t h
    · rw [List.dropWhile_cons_of_neg (by simpa using hp)] at h
      cases h
      simpa using hp

/-- All matches, in order, of the JS global regex `[^.!?]+[.!?]+` (line 448):
each match is a maximal run of non-terminators followed by the maximal run of
terminators after it; leading terminators can start no match and are
skipped. -/
def sentMatches (l : List Char) : List (List Char) :=
  let r := l.dropWhile isSentTerm
  let pre := r.takeWhile (fun d => !isSentTerm d)
  let r2 := r.dropWhile (fun d => !isSentTerm d)
  if h : r2 = [] then []
  else (pre ++ r2.takeWhile isSentTerm) :: sentMatches (r2.dropWhile isSentTerm)
termination_by l.length
decreasing_by
  rcases hr2 : (l.dropWhile isSentTerm).dropWhile (fun d => !isSentTerm d)
    with - | ⟨c, t⟩
  · exact absurd hr2 h
  · have hc : isSentTerm c = true := by
      simpa using dropWhile_cons_head_eq_false (fun d => !isSentTerm d)
        (l.dropWhile isSentTerm) c t hr2
    calc (List.dropWhile isSentTerm (c :: t)).length
        = (List.dropWhile isSentTerm t).length := by
          rw [List.dropWhile_cons_of_pos hc]
      _ ≤ t.length := length_dropWhile_le' isSentTerm t
      _ < (c :: t).length := by simp
      _ ≤ (l.dropWhile isSentTerm).length := by
          rw [← hr2]
          exact length_dropWhile_le' _ (l.dropWhile isSentTerm)
      _ ≤ l.length := length_dropWhile_le' isSentTerm l

/-- The `endIndex` computed by one iteration of the sliding-window loop
(summarize.ts lines 443-454): start + CHUNK_SIZE, possibly retracted to the
end of the last complete sentence found in the window extended by 100
lookahead characters — `sentences.slice(0, -1).join('')` is the concatenation
of all matches except the last. -/
def chunkEnd (text : List Char) (startIndex : Int) : Int :=
  let endIndex : Int := startIndex + (CHUNK_SIZE : Int)
  if endIndex < (text.length : Int) then
    let chunk := jsSlice text startIndex (endIndex + 100)
    let sentences := sentMatches chunk
    if sentences.length > 1 then
      let lastComplete := sentences.dropLast.flatten
      startIndex + (lastComplete.length : Int)
    else endIndex
  else endIndex

/-- The sliding-window loop of `chunkText` (lines 440-458) with explicit
fuel: the source `while (startIndex < text.length)` loop advances by
`chunkEnd - OVERLAP_SIZE` and has no termination guarantee (see the stalling
input below), so the embedding burns one unit of fuel per iteration and
returns the chunks emitted so far when the fuel runs out. -/
def chunkLoop (fuel : Nat) (text : List Char) (startIndex : Int) : List (List Char) :=
  match fuel with
  | 0 => []
  | fuel + 1 =>
    if startIndex < (text.length : Int) then
      let e := chunkEnd text startIndex
      trimChars (jsSlice text startIndex e) ::
        chunkLoop fuel text (e - (OVERLAP_SIZE : Int))
    else []

/-- ASCII `[A-Z]`. -/
def isAsciiUpper (c : Char) : Bool := 'A' ≤ c && c ≤ 'Z'

/-- ASCII `[a-z]`. -/
def isAsciiLower (c : Char) : Bool := 'a' ≤ c && c ≤ 'z'

/-- The first lookahead alternative `[A-Z][a-z]+\s*\n` tested at the head of
the suffix following a split candidate. -/
def headingAlt1 (l : List Char) : Bool :=
  match l with
  | [] => false
  | c :: rest =>
    isAsciiUpper c &&
      !(rest.takeWhile isAsciiLower).isEmpty &&
      ((rest.dropWhile isAsciiLower).takeWhile isJsWs).contains '\n'

/-- The second lookahead alternative `[A-Z][A-Z\s]+\n`. -/
def headingAlt2 (l : List Char) : Bool :=
  match l with
  | [] => false
  | c :: rest =>
    isAsciiUpper c &&
      ((rest.takeWhile (fun d => isAsciiUpper d || isJsWs d)).drop 1).contains '\n'

/-- The zero-width lookahead of the section-splitting regex
`/\n(?=[A-Z][a-z]+\s*\n|[A-Z][A-Z\s]+\n)/` (lines 425 and 281). -/
def isHeadingLookahead (l : List Char) : Bool := headingAlt1 l || headingAlt2 l

/-- Worker for `splitSections`: split at every `\n` whose suffix matches the
heading lookahead, consuming the `\n` (it is the separator) and keeping the
lookahead text. -/
def splitSectionsGo (l : List Char) (acc : List Char) : List (List Char) :=
  match l with
  | [] => [acc.reverse]
  | c :: rest =>
    if c = '\n' && isHeadingLookahead rest then
      acc.reverse :: splitSectionsGo rest []
    else
      splitSectionsGo rest (c :: acc)

/-- `text.split(/\n(?=[A-Z][a-z]+\s*\n|[A-Z][A-Z\s]+\n)/)`. -/
def splitSections (l : List Char) : List (List Char) := splitSectionsGo l []

/-- The section-accumulation loop of the research branch of `chunkText`
(lines 423-437): sections are appended to the current chunk (joined by a
blank line) while `(currentChunk + section).length` stays within
`CHUNK_SIZE`; otherwise the current chunk is flushed (trimmed) and the
section starts a new chunk; a JS-falsy (empty) current chunk is never
pushed. -/
def accumulateSections (sections : List (List Char)) : List (List Char) :=
  let step := fun (st : List (List Char) × List Char) (sec : List Char) =>
    if st.2.length + sec.length ≤ CHUNK_SIZE then
      (st.1, st.2 ++ (if st.2.isEmpty then [] else ['\n', '\n']) ++ sec)
    else
      (if st.2.isEmpty then st.1 else st.1 ++ [trimChars st.2], sec)
  let final := sections.foldl step ([], [])
  if final.2.isEmpty then final.1 else final.1 ++ [trimChars final.2]

/-- `chunkText` (summarize.ts lines 420-462): section-based accumulation for
research documents, the fueled sliding-window loop for everything else. -/
def chunkText (text : List Char) (analysis : DocumentAnalysis) : List (List Char) :=
  if analysis.type = DocType.research then
    accumulateSections (splitSections text)
  else
    chunkLoop (text.length + 1) text 0

/-! Helper lemmas: `takeWhile`/`dropWhile` across a replicated prefix. -/

lemma takeWhile_repApp_pos {α : Type} (p : α → Bool) (a : α) (h : p a = true)
    (n : Nat) (l : List α) :
    (List.replicate n a ++ l).takeWhile p = List.replicate n a ++ l.takeWhile p := by
  induction n with
  | zero => simp
  | succ n ih =>
    rw [List.replicate_succ, List.cons_append, List.takeWhile_cons_of_pos h, ih,
      List.cons_append]

lemma dropWhile_repApp_pos {α : Type} (p : α → Bool) (a : α) (h : p a = true)
    (n : Nat) (l : List α) :
    (List.replicate n a ++ l).dropWhile p = l.dropWhile p := by
  induction n with
  | zero => simp
  | succ n ih =>
    rw [List.replicate_succ, List.cons_append, List.dropWhile_cons_of_pos h, ih]

lemma takeWhile_repApp_neg {α : Type} (p : α → Bool) (a : α) (h : p a = false)
    {n : Nat} (hn : 0 < n) (l : List α) :
    (List.replicate n a ++ l).takeWhile p = [] := by
  obtain ⟨m, rfl⟩ : ∃ m, n = m + 1 := ⟨n - 1, by omega⟩
  rw [List.replicate_succ, List.cons_append,
    List.takeWhile_cons_of_neg (by simp [h])]

lemma dropWhile_repApp_neg {α : Type} (p : α → Bool) (a : α) (h : p a = false)
    {n : Nat} (hn : 0 < n) (l : List α) :
    (List.replicate n a ++ l).dropWhile p = List.replicate n a ++ l := by
  obtain ⟨m, rfl⟩ : ∃ m, n = m + 1 := ⟨n - 1, by omega⟩
  rw [List.replicate_succ, List.cons_append,
    List.dropWhile_cons_of_neg (by simp [h])]

lemma takeWhile_rep_pos {α : Type} (p : α → Bool) (a : α) (h : p a = true)
    (n : Nat) : (List.replicate n a).takeWhile p = List.replicate n a := by
  have := takeWhile_repApp_pos p a h n ([] : List α)
  simpa using this

lemma takeWhile_rep_neg {α : Type} (p : α → Bool) (a : α) (h : p a = false)
    (n : Nat) : (List.replicate n a).takeWhile p = [] := by
  cases n with
  | zero => simp
  | succ m =>
    have := takeWhile_repApp_neg p a h (Nat.succ_pos m) ([] : List α)
    simpa using this

lemma dropWhile_rep_pos {α : Type} (p : α → Bool) (a : α) (h : p a = true)
    (n : Nat) : (List.replicate n a).dropWhile p = [] := by
  have := dropWhile_repApp_pos p a h n ([] : List α)
  simpa using this

lemma dropWhile_rep_neg {α : Type} (p : α → Bool) (a : α) (h : p a = false)
    (n : Nat) : (List.replicate n a).dropWhile p = List.replicate n a := by
  cases n with
  | zero => simp
  | succ m =>
    have := dropWhile_repApp_neg p a h (Nat.succ_pos m) ([] : List α)
    simpa using this

/-- An input on which the sliding-window loop stalls: a 1000-character
sentence (999 `x`s and a period), a two-character sentence `y.`, then 8999
characters without any sentence terminator — total length 10001, one more
than `CHUNK_SIZE`. -/
def stallText : List Char :=
  List.replicate 999 'x' ++ '.' :: 'y' :: '.' :: List.replicate 8999 'z'

lemma stallText_length : stallText.length = 10001 := by
  rw [stallText]
  simp only [List.length_append, List.length_cons, List.length_replicate]

/-- The window at the start of `stallText` contains exactly two sentence
matches. -/
lemma sentMatches_stallText :
    sentMatches stallText = [List.replicate 999 'x' ++ ['.'], ['y', '.']] := by
  have hx : isSentTerm 'x' = false := by decide
  have hz : isSentTerm 'z' = false := by decide
  have hxn : (fun d => !isSentTerm d) 'x' = true := by decide
  have hzn : (fun d => !isSentTerm d) 'z' = true := by decide
  have hd1 : stallText.dropWhile isSentTerm = stallText := by
    rw [stallText]
    exact dropWhile_repApp_neg isSentTerm 'x' hx (by norm_num) _
  have hp1 : stallText.takeWhile (fun d => !isSentTerm d) = List.replicate 999 'x' := by
    rw [stallText, takeWhile_repApp_pos (fun d => !isSentTerm d) 'x' hxn,
      List.takeWhile_cons_of_neg (by decide), List.append_nil]
  have hr1 : stallText.dropWhile (fun d => !isSentTerm d) =
      '.' :: 'y' :: '.' :: List.replicate 8999 'z' := by
    rw [stallText, dropWhile_repApp_pos (fun d => !isSentTerm d) 'x' hxn,
      List.dropWhile_cons_of_neg (by decide)]
  have ht1 : List.takeWhile isSentTerm ('.' :: 'y' :: '.' :: List.replicate 8999 'z') =
      ['.'] := by
    rw [List.takeWhile_cons_of_pos (by decide), List.takeWhile_cons_of_neg (by decide)]
  have hdt1 : List.dropWhile isSentTerm ('.' :: 'y' :: '.' :: List.replicate 8999 'z') =
      'y' :: '.' :: List.replicate 8999 'z' := by
    rw [List.dropWhile_cons_of_pos (by decide), List.dropWhile_cons_of_neg (by decide)]
  have hd2 : List.dropWhile isSentTerm ('y' :: '.' :: List.replicate 8999 'z') =
      'y' :: '.' :: List.replicate 8999 'z' := by
    rw [List.dropWhile_cons_of_neg (by decide)]
  have hp2 : List.takeWhile (fun d => !isSentTerm d)
      ('y' :: '.' :: List.replicate 8999 'z') = ['y'] := by
    rw [List.takeWhile_cons_of_pos (by decide), List.takeWhile_cons_of_neg (by decide)]
  have hr2 : List.dropWhile (fun d => !isSentTerm d)
      ('y' :: '.' :: List.replicate 8999 'z') = '.' :: List.replicate 8999 'z' := by
    rw [List.dropWhile_cons_of_pos (by decide), List.dropWhile_cons_of_neg (by decide)]
  have ht2 : List.takeWhile isSentTerm ('.' :: List.replicate 8999 'z') = ['.'] := by
    rw [List.takeWhile_cons_of_pos (by decide), takeWhile_rep_neg isSentTerm 'z' hz]
  have hdt2 : List.dropWhile isSentTerm ('.' :: List.replicate 8999 'z') =
      List.replicate 8999 'z' := by
    rw [List.dropWhile_cons_of_pos (by decide), dropWhile_rep_neg isSentTerm 'z' hz]
  have hd3 : List.dropWhile isSentTerm (List.replicate 8999 'z') =
      List.replicate 8999 'z' := dropWhile_rep_neg isSentTerm 'z' hz _
  have hr3 : List.dropWhile (fun d => !isSentTerm d) (List.replicate 8999 'z') =
      ([] : List Char) := dropWhile_rep_pos (fun d => !isSentTerm d) 'z' hzn _
  rw [sentMatches]
  rw [hd1, hr1, hp1]
  rw [dif_neg (List.cons_ne_nil _ _)]
  rw [ht1, hdt1]
  rw [sentMatches]
  rw [hd2, hr2, hp2]
  rw [dif_neg (List.cons_ne_nil _ _)]
  rw [ht2, hdt2]
  rw [sentMatches]
  rw [hd3, hr3]
  rw [dif_pos rfl]
  rfl

/-- At `startIndex = 0` on `stallText` the retraction keeps exactly the first
1000-character sentence: `endIndex` becomes 1000. -/
lemma chunkEnd_stallText : chunkEnd stallText 0 = 1000 := by
  have hwindow : jsSlice stallText 0 (0 + (CHUNK_SIZE : Int) + 100) = stallText := by
    rw [jsSlice]
    rw [stallText_length]
    norm_num [jsIdx, CHUNK_SIZE]
    exact le_of_eq stallText_length
  have hm1 : (List.replicate 999 'x' ++ ['.'] : List Char).length = 1000 := by
    rw [List.length_append, List.length_replicate]
    rfl
  have hfl : ([List.replicate 999 'x' ++ ['.'], ['y', '.']] :
      List (List Char)).dropLast.flatten = List.replicate 999 'x' ++ ['.'] := by
    rw [show ([List.replicate 999 'x' ++ ['.'], ['y', '.']] :
      List (List Char)).dropLast = [List.replicate 999 'x' ++ ['.']] from rfl]
    rw [List.flatten_cons, List.flatten_nil, List.append_nil]
  rw [chunkEnd]
  dsimp only
  rw [if_pos (by rw [stallText_length]; norm_num [CHUNK_SIZE])]
  rw [hwindow, sentMatches_stallText]
  rw [if_pos (by norm_num)]
  rw [hfl, hm1]
  norm_num


/-- C5 (observed divergence): on `stallText` the sliding-window loop makes no
progress — the window holds two sentence matches whose retained prefix is
exactly 1000 = OVERLAP_SIZE characters, so `endIndex` retracts to 1000 and the
next `startIndex` is `1000 - OVERLAP_SIZE = 0`, the state it started from.
The source `while` loop therefore repeats the identical iteration forever
(the fueled embedding emits exactly one chunk per unit of fuel and never
reaches the exit condition), contradicting the claim that every iteration
makes strictly positive progress. -/
theorem chunkLoop_stalls_on_stallText :
    chunkEnd stallText 0 - (OVERLAP_SIZE : Int) = 0 ∧
    ∀ fuel : Nat, (chunkLoop fuel stallText 0).length = fuel := by
  have hnext : chunkEnd stallText 0 - (OVERLAP_SIZE : Int) = 0 := by
    rw [chunkEnd_stallText]
    norm_num [OVERLAP_SIZE]
  refine ⟨hnext, ?_⟩
  intro fuel
  induction fuel with
  | zero => rfl
  | succ n ih =>
    rw [chunkLoop]
    rw [if_pos (by rw [stallText_length]; norm_num)]
    dsimp only
    rw [hnext, List.length_cons, ih]

/-- The `DocumentAnalysis` of a plain short general document (no structural
markers, no business terms). -/
def generalAnalysis : DocumentAnalysis :=
  { type := DocType.general, complexity := Complexity.low,
    length := LengthBucket.short, hasEquations := false, hasCitations := false,
    hasCode := false, domain := Domain.general_business }

/-- C4 counterexample: two texts of length at most `CHUNK_SIZE = 10000`
refute the claim — the empty text produces no chunk at all, and a
9001-character text produces two chunks, because after the first full-width
chunk the loop restarts at `endIndex - OVERLAP_SIZE = 9000 < 9001` and emits
a second overlap window. -/
theorem chunkText_budget_counterexample :
    chunkText [] generalAnalysis = [] ∧
    (chunkText (List.replicate 9001 'a') generalAnalysis).length = 2 := by
  constructor
  · rfl
  · rw [chunkText, if_neg (by decide)]
    have hL : (List.replicate 9001 'a').length = 9001 := by
      rw [List.length_replicate]
    have hE0 : chunkEnd (List.replicate 9001 'a') 0 = (CHUNK_SIZE : Int) := by
      rw [chunkEnd]
      dsimp only
      rw [if_neg (by rw [hL]; norm_num [CHUNK_SIZE])]
      norm_num
    have hE9000 : chunkEnd (List.replicate 9001 'a') 9000 =
        9000 + (CHUNK_SIZE : Int) := by
      rw [chunkEnd]
      dsimp only
      rw [if_neg (by rw [hL]; norm_num [CHUNK_SIZE])]
    rw [hL]
    rw [chunkLoop]
    rw [if_pos (by rw [hL]; norm_num)]
    dsimp only
    rw [hE0]
    rw [show (CHUNK_SIZE : Int) - (OVERLAP_SIZE : Int) = 9000 by
      norm_num [CHUNK_SIZE, OVERLAP_SIZE]]
    rw [show (9001 : Nat) = 9000 + 1 from rfl]
    rw [chunkLoop]
    rw [if_pos (by rw [hL]; norm_num)]
    dsimp only
    rw [hE9000]
    rw [show 9000 + (CHUNK_SIZE : Int) - (OVERLAP_SIZE : Int) = 18000 by
      norm_num [CHUNK_SIZE, OVERLAP_SIZE]]
    rw [show (9000 : Nat) = 8999 + 1 from rfl]
    rw [chunkLoop]
    rw [if_neg (by rw [hL]; norm_num)]
    rfl

/-- C4 amended: for every nonempty text whose analysis is not research-typed
and whose length is at most `CHUNK_SIZE - OVERLAP_SIZE` (9000 characters),
`chunkText` returns exactly one chunk, and that chunk is the text trimmed of
surrounding whitespace. -/
theorem chunkText_single_chunk (text : List Char) (analysis : DocumentAnalysis)
    (hty : analysis.type ≠ DocType.research) (hne : text ≠ [])
    (hlen : text.length ≤ CHUNK_SIZE - OVERLAP_SIZE) :
    chunkText text analysis = [trimChars text] := by
  have hpos : 0 < text.length := List.length_pos.mpr hne
  have hlen' : text.length ≤ 9000 := by
    simpa [CHUNK_SIZE, OVERLAP_SIZE] using hlen
  have hE : chunkEnd text 0 = (CHUNK_SIZE : Int) := by
    rw [chunkEnd]
    dsimp only
    rw [if_neg (by norm_num [CHUNK_SIZE]; omega)]
    norm_num
  have hslice : jsSlice text 0 (CHUNK_SIZE : Int) = text := by
    rw [jsSlice]
    norm_num [jsIdx, CHUNK_SIZE]
    omega
  obtain ⟨n, hn⟩ : ∃ n, text.length = n + 1 := ⟨text.length - 1, by omega⟩
  have hrec : chunkLoop (n + 1) text ((CHUNK_SIZE : Int) - (OVERLAP_SIZE : Int)) = [] := by
    rw [chunkLoop]
    rw [if_neg (by simp only [CHUNK_SIZE, OVERLAP_SIZE]; push_cast; omega)]
  rw [chunkText, if_neg hty, hn]
  rw [chunkLoop]
  rw [if_pos (by exact_mod_cast hpos)]
  dsimp only
  rw [hE, hslice, hrec]

/-- Witness for C4's amended theorem at a concrete three-character input. -/
theorem chunkText_single_chunk_witness :
    (generalAnalysis.type ≠ DocType.research ∧
      (' ' :: 'a' :: 'b' :: []) ≠ ([] : List Char) ∧
      (' ' :: 'a' :: 'b' :: []).length ≤ CHUNK_SIZE - OVERLAP_SIZE) ∧
    chunkText (' ' :: 'a' :: 'b' :: []) generalAnalysis =
      [trimChars (' ' :: 'a' :: 'b' :: [])] :=
  ⟨⟨by decide, by decide, by decide⟩,
    chunkText_single_chunk (' ' :: 'a' :: 'b' :: []) generalAnalysis
      (by decide) (by decide) (by decide)⟩


/-! ## `/text` route input guards (summarize.ts lines 647-681 and the
`part_001` route variant lines 252-261) -/

/-- Outcome of a route handler: an HTTP error response, or the text accepted
and passed on to summary generation. -/
inductive RouteOutcome (α : Type) where
  | reject (status : Nat) (msg : String)
  | accept (result : α)
deriving DecidableEq, Repr

/-- `true` iff the route answered with an error response. -/
def RouteOutcome.isReject {α : Type} : RouteOutcome α → Bool
  | RouteOutcome.reject _ _ => true
  | RouteOutcome.accept _ => false

/-- The `/text` route of summarize.ts (lines 647-681): the only input guard
is the JS-falsy test `if (!text)`, so exactly the empty string is rejected;
any other text — whitespace-only included — reaches
`generateEnhancedSummary` (abstracted as `pipeline`, applied only after the
guard). -/
def textRouteSummarize {α : Type} (pipeline : List Char → α) (text : List Char) :
    RouteOutcome α :=
  if text = [] then RouteOutcome.reject 400 "No text provided"
  else RouteOutcome.accept (pipeline text)

/-- The `/text` route of the `part_001` variant (lines 252-261): rejects
falsy text and additionally text with `text.trim().length === 0`, before any
summarization work. -/
def textRoutePart001 {α : Type} (pipeline : List Char → α) (text : List Char) :
    RouteOutcome α :=
  if text = [] then RouteOutcome.reject 400 "No text provided"
  else if (trimChars text).length = 0 then
    RouteOutcome.reject 400 "Empty text provided"
  else RouteOutcome.accept (pipeline text)

/-- Trimming a fully-whitespace text leaves nothing. -/
lemma trimChars_eq_nil_of_all_ws (l : List Char)
    (h : ∀ c ∈ l, isJsWs c = true) : trimChars l = [] := by
  unfold trimChars
  have h1 : l.dropWhile isJsWs = [] := by
    rw [List.dropWhile_eq_nil_iff]
    exact h
  rw [h1]
  rfl

/-- C8 counterexample: the summarize.ts `/text` route accepts the
whitespace-only input `" "` — the text is passed to the summarization
pipeline instead of being rejected. -/
theorem textRouteSummarize_whitespace_counterexample :
    textRouteSummarize (fun t => t) [' '] = RouteOutcome.accept [' '] := rfl

/-- C8 amended: both `/text` entry points reject empty input with a
structured 400 error before any classification or backend work (the guard
precedes every use of the pipeline), and the `part_001` variant also rejects
every whitespace-only input; the summarize.ts variant, however, rejects
exactly the empty string, so whitespace-only text proceeds into
summarization there. -/
theorem textRoute_guards {α : Type} (pipeline : List Char → α) (text : List Char) :
    ((∀ c ∈ text, isJsWs c = true) →
      (textRoutePart001 pipeline text).isReject = true) ∧
    ((textRouteSummarize pipeline text).isReject = true ↔ text = []) := by
  constructor
  · intro hws
    unfold textRoutePart001
    rcases htext : text with - | ⟨c, rest⟩
    · rfl
    · rw [if_neg (by simp)]
      rw [if_pos]
      · rfl
      · rw [trimChars_eq_nil_of_all_ws _ (htext ▸ hws)]
        rfl
  · unfold textRouteSummarize
    rcases text with - | ⟨c, rest⟩
    · simp [RouteOutcome.isReject]
    · simp [RouteOutcome.isReject]

/-- Witness for C8's amended theorem: the `part_001` guard rejects the
whitespace-only input `" "`. -/
theorem textRoute_guards_witness :
    (∀ c ∈ [' '], isJsWs c = true) ∧
    (textRoutePart001 (fun t => t) [' ']).isReject = true :=
  ⟨by decide, (textRoute_guards (fun t => t) [' ']).1 (by decide)⟩


/-! ## Text normalization (`preprocessText`, summarize.ts lines 248-289).

The basic cleaning chain (line 252-255) is
`.replace(/(?:\r\n|\r|\n){2,}/g, '\n\n').replace(/\s+/g, ' ').trim()`;
the conditional passes remove citations, replace equation/code spans, and for
research documents drop blacklisted sections. -/

/-- One maximal run of newline units (`\r\n`, `\r` or `\n`, in the regex's
alternation order): number of units consumed and the remaining characters. -/
def nlRun : List Char → Nat × List Char
  | '\r' :: '\n' :: cs => let p := nlRun cs; (p.1 + 1, p.2)
  | '\r' :: cs => let p := nlRun cs; (p.1 + 1, p.2)
  | '\n' :: cs => let p := nlRun cs; (p.1 + 1, p.2)
  | cs => (0, cs)

/-- A newline run never grows: units plus remainder stay within the input. -/
lemma nlRun_length : ∀ l : List Char, (nlRun l).2.length + (nlRun l).1 ≤ l.length := by
  intro l
  induction l using nlRun.induct <;> simp_all [nlRun] <;> omega

/-- Decrease lemma for `collapseNl`. -/
lemma collapseNl_dec (c : Char) (cs : List Char)
    (h : 2 ≤ (nlRun (c :: cs)).1) :
    (nlRun (c :: cs)).2.length < (c :: cs).length := by
  have h1 := nlRun_length (c :: cs)
  simp only [List.length_cons] at *
  omega

/-- Decrease lemma for `collapseWs` and similar scanners. -/
lemma dropWhile_lt_cons {α : Type} (p : α → Bool) (c : α) (cs : List α) :
    (cs.dropWhile p).length < (c :: cs).length := by
  have := length_dropWhile_le' p cs
  simp only [List.length_cons]
  omega

/-- Decrease lemma for `parseNumGroups`. -/
lemma parseNumGroups_dec (rest : List Char) :
    ((rest.dropWhile isJsWs).dropWhile Char.isDigit).length <
      (',' :: rest).length := by
  have h1 := length_dropWhile_le' Char.isDigit (rest.dropWhile isJsWs)
  have h2 := length_dropWhile_le' isJsWs rest
  simp only [List.length_cons]
  omega

/-- `.replace(/(?:\r\n|\r|\n){2,}/g, '\n\n')` (line 253): a maximal run of at
least two newline units collapses to one blank line; a single unit is left in
place (the regex finds no match there and scanning advances one character). -/
def collapseNl (l : List Char) : List Char :=
  match l with
  | [] => []
  | c :: cs =>
    if c = '\r' ∨ c = '\n' then
      if 2 ≤ (nlRun (c :: cs)).1 then
        '\n' :: '\n' :: collapseNl (nlRun (c :: cs)).2
      else c :: collapseNl cs
    else c :: collapseNl cs
termination_by l.length
decreasing_by
  all_goals first
    | (apply collapseNl_dec; assumption)
    | simp

/-- `.replace(/\s+/g, ' ')` (line 254): every maximal whitespace run becomes
a single space. -/
def collapseWs (l : List Char) : List Char :=
  match l with
  | [] => []
  | c :: cs =>
    if isJsWs c then ' ' :: collapseWs (cs.dropWhile isJsWs)
    else c :: collapseWs cs
termination_by l.length
decreasing_by
  all_goals first
    | apply dropWhile_lt_cons
    | simp

/-- The basic cleaning chain of `preprocessText` (lines 252-255). -/
def cleanBasic (l : List Char) : List Char :=
  trimChars (collapseWs (collapseNl l))

/-- Greedy `(?:,\s*\d+)*`: consume comma groups as long as each closes with
at least one digit; stop (before the comma) on the first failing group. -/
def parseNumGroups (l : List Char) : List Char :=
  match l with
  | ',' :: rest =>
    let ws := rest.dropWhile isJsWs
    if ws.takeWhile Char.isDigit = [] then ',' :: rest
    else parseNumGroups (ws.dropWhile Char.isDigit)
  | l => l
termination_by l.length
decreasing_by
  apply parseNumGroups_dec

/-- Comma groups only consume characters. -/
lemma parseNumGroups_length : ∀ l : List Char, (parseNumGroups l).length ≤ l.length := by
  intro l
  induction l using parseNumGroups.induct with
  | case1 rest h =>
    rw [parseNumGroups]
    rw [if_pos (by simp_all [List.takeWhile_eq_nil_iff])]
  | case2 rest ws h ih =>
    rw [parseNumGroups]
    rw [if_neg (by simp_all [List.takeWhile_eq_nil_iff])]
    have hws : ws = List.dropWhile isJsWs rest := rfl
    have h1 := length_dropWhile_le' Char.isDigit (rest.dropWhile isJsWs)
    have h2 := length_dropWhile_le' isJsWs rest
    rw [hws] at ih
    simp only [List.length_cons]
    omega
  | case3 l h =>
    rw [parseNumGroups]
    exact h


/-- Try to match `\d+(?:,\s*\d+)*\]` directly after an opening `[` (the body
of `/\[\d+(?:,\s*\d+)*\]/`, line 260); on success return the characters after
the closing `]`. -/
def parseCite1 (l : List Char) : Option (List Char) :=
  if l.takeWhile Char.isDigit = [] then none
  else
    match parseNumGroups (l.dropWhile Char.isDigit) with
    | ']' :: rest => some rest
    | _ => none

/-- A successful numbered-citation match consumes characters. -/
lemma parseCite1_length {l r : List Char} (h : parseCite1 l = some r) :
    r.length ≤ l.length := by
  unfold parseCite1 at h
  split at h
  · exact absurd h (by simp)
  · split at h
    · rename_i rest heq
      cases h
      have h1 : (']' :: r).length ≤ (l.dropWhile Char.isDigit).length := by
        rw [← heq]
        exact parseNumGroups_length _
      have h2 := length_dropWhile_le' Char.isDigit l
      simp only [List.length_cons] at h1
      omega
    · exact absurd h (by simp)

/-- `.replace(/\[\d+(?:,\s*\d+)*\]/g, '')` (line 260): delete every numbered
citation; at a `[` that opens no citation, keep it and move on. -/
def removeNumCitations (l : List Char) : List Char :=
  match l with
  | [] => []
  | c :: rest =>
    if c = '[' then
      if h : (parseCite1 rest).isSome then
        removeNumCitations ((parseCite1 rest).get h)
      else c :: removeNumCitations rest
    else c :: removeNumCitations rest
termination_by l.length
decreasing_by
  · have := parseCite1_length (Option.some_get h).symm
    simp only [List.length_cons]
    omega
  · simp
  · simp

/-- JS `\w`: ASCII letters, digits and underscore. -/
def isWordChar (c : Char) : Bool := c.isAlpha || c.isDigit || c = '_'

/-- `\s+`: at least one whitespace character, consumed greedily. -/
def expectWs (l : List Char) : Option (List Char) :=
  if l.takeWhile isJsWs = [] then none else some (l.dropWhile isJsWs)

/-- `\w+`: at least one word character, consumed greedily. -/
def expectWord (l : List Char) : Option (List Char) :=
  if l.takeWhile isWordChar = [] then none else some (l.dropWhile isWordChar)

lemma expectWs_suffix {l r : List Char} (h : expectWs l = some r) : r <:+ l := by
  unfold expectWs at h
  split at h
  · exact absurd h (by simp)
  · cases h
    exact List.dropWhile_suffix _

lemma expectWord_suffix {l r : List Char} (h : expectWord l = some r) : r <:+ l := by
  unfold expectWord at h
  split at h
  · exact absurd h (by simp)
  · cases h
    exact List.dropWhile_suffix _

/-- Try to match `\w+\s+et\s+al\.,?\s+\d{4}\)` directly after an opening `(`
(the body of `/\(\w+\s+et\s+al\.,?\s+\d{4}\)/`, line 261); on success return
the characters after the closing `)`.  The optional comma is consumed when
present (without it, `\s+` would have to match the comma and fail), and
`\d{4}` demands a digit run of exactly four (a fifth digit would sit where
the closing parenthesis is required). -/
def parseCite2 (l : List Char) : Option (List Char) :=
  (expectWord l).bind fun r1 =>
  (expectWs r1).bind fun r2 =>
  match r2 with
  | 'e' :: 't' :: r3 =>
    (expectWs r3).bind fun r4 =>
    match r4 with
    | 'a' :: 'l' :: '.' :: r5 =>
      (expectWs (if r5.head? = some ',' then r5.tail else r5)).bind fun r7 =>
      if (r7.takeWhile Char.isDigit).length = 4 then
        (if (r7.dropWhile Char.isDigit).head? = some ')' then
          some (r7.dropWhile Char.isDigit).tail
        else none)
      else none
    | _ => none
  | _ => none

/-- A successful author-year (`et al.`) match leaves a suffix of the input. -/
lemma parseCite2_suffix {l r : List Char} (h : parseCite2 l = some r) :
    r <:+ l := by
  unfold parseCite2 at h
  simp only [Option.bind_eq_some] at h
  obtain ⟨r1, h1, h⟩ := h
  obtain ⟨r2, h2, h⟩ := h
  have s1 : r1 <:+ l := expectWord_suffix h1
  split at h
  case _ r3 =>
    have s2 : 'e' :: 't' :: r3 <:+ r1 := expectWs_suffix h2
    simp only [Option.bind_eq_some] at h
    obtain ⟨r4, h4, h⟩ := h
    split at h
    case _ r5 =>
      have s3 : 'a' :: 'l' :: '.' :: r5 <:+ r3 := expectWs_suffix h4
      simp only [Option.bind_eq_some] at h
      obtain ⟨r7, h7, h⟩ := h
      have s4 : r7 <:+ (if r5.head? = some ',' then r5.tail else r5) :=
        expectWs_suffix h7
      have s5 : (if r5.head? = some ',' then r5.tail else r5) <:+ r5 := by
        split
        · exact List.tail_suffix _
        · exact List.suffix_refl _
      split at h
      · split at h
        · cases h
          have s6 : (r7.dropWhile Char.isDigit).tail <:+ r7 :=
            (List.tail_suffix _).trans (List.dropWhile_suffix _)
          have t5 : r5 <:+ 'a' :: 'l' :: '.' :: r5 :=
            (List.suffix_cons '.' r5).trans
              ((List.suffix_cons 'l' _).trans (List.suffix_cons 'a' _))
          have t3 : r3 <:+ 'e' :: 't' :: r3 :=
            (List.suffix_cons 't' r3).trans (List.suffix_cons 'e' _)
          exact ((((((s6.trans s4).trans s5).trans t5).trans s3).trans t3).trans
            s2).trans s1
        · exact absurd h (by simp)
      · exact absurd h (by simp)
    case _ => exact absurd h (by simp)
  case _ => exact absurd h (by simp)

/-- Four consecutive digits occur somewhere in the list. -/
def hasFourDigitRun (l : List Char) : Bool :=
  match l with
  | a :: b :: c :: d :: rest =>
    (a.isDigit && b.isDigit && c.isDigit && d.isDigit) ||
      hasFourDigitRun (b :: c :: d :: rest)
  | _ => false

/-- Try to match `[^)]+\d{4}[^)]*\)` directly after an opening `(` (the body
of `/\([^)]+\d{4}[^)]*\)/`, line 262).  The match can only end at the first
`)` after the opening one (the character classes exclude `)`), and it
succeeds iff the enclosed content is nonempty and contains four consecutive
digits starting at position one or later (`[^)]+` needs at least one
character before `\d{4}`). -/
def parseCite3 (l : List Char) : Option (List Char) :=
  if (l.dropWhile (fun c => c ≠ ')')).head? = some ')' then
    if l.takeWhile (fun c => c ≠ ')') = [] then none
    else if hasFourDigitRun (l.takeWhile (fun c => c ≠ ')')).tail then
      some (l.dropWhile (fun c => c ≠ ')')).tail
    else none
  else none

/-- A successful year-parenthetical match leaves a suffix of the input. -/
lemma parseCite3_suffix {l r : List Char} (h : parseCite3 l = some r) :
    r <:+ l := by
  unfold parseCite3 at h
  split at h
  · split at h
    · exact absurd h (by simp)
    · split at h
      · cases h
        exact (List.tail_suffix _).trans (List.dropWhile_suffix _)
      · exact absurd h (by simp)
  · exact absurd h (by simp)

/-- `.replace(/\(\w+\s+et\s+al\.,?\s+\d{4}\)/g, '')` (line 261). -/
def removeEtAlCitations (l : List Char) : List Char :=
  match l with
  | [] => []
  | c :: rest =>
    if c = '(' then
      if h : (parseCite2 rest).isSome then
        removeEtAlCitations ((parseCite2 rest).get h)
      else c :: removeEtAlCitations rest
    else c :: removeEtAlCitations rest
termination_by l.length
decreasing_by
  · have := (parseCite2_suffix (Option.some_get h).symm).length_le
    simp only [List.length_cons]
    omega
  · simp
  · simp

/-- `.replace(/\([^)]+\d{4}[^)]*\)/g, '')` (line 262). -/
def removeYearParenCitations (l : List Char) : List Char :=
  match l with
  | [] => []
  | c :: rest =>
    if c = '(' then
      if h : (parseCite3 rest).isSome then
        removeYearParenCitations ((parseCite3 rest).get h)
      else c :: removeYearParenCitations rest
    else c :: removeYearParenCitations rest
termination_by l.length
decreasing_by
  · have := (parseCite3_suffix (Option.some_get h).symm).length_le
    simp only [List.length_cons]
    omega
  · simp
  · simp


/-- Tails never grow. -/
lemma length_tail_le {α : Type} (l : List α) : l.tail.length ≤ l.length := by
  cases l <;> simp

/-- Decrease lemma: drop-while after one tail, then two tails. -/
lemma dec_tail_drop_2 (p : Char → Bool) (c : Char) (r : List Char) :
    ((r.tail.dropWhile p).tail.tail).length < (c :: r).length := by
  have h1 := length_tail_le ((r.tail.dropWhile p).tail)
  have h2 := length_tail_le (r.tail.dropWhile p)
  have h3 := length_dropWhile_le' p r.tail
  have h4 := length_tail_le r
  simp only [List.length_cons]
  omega

/-- Decrease lemma: drop-while, then one tail. -/
lemma dec_drop_1 (p : Char → Bool) (c : Char) (r : List Char) :
    ((r.dropWhile p).tail).length < (c :: r).length := by
  have h1 := length_tail_le (r.dropWhile p)
  have h2 := length_dropWhile_le' p r
  simp only [List.length_cons]
  omega

/-- Decrease lemma: drop-while after two tails, then three tails. -/
lemma dec_tail2_drop_3 (p : Char → Bool) (c : Char) (r : List Char) :
    ((r.tail.tail.dropWhile p).tail.tail.tail).length < (c :: r).length := by
  have h1 := length_tail_le ((r.tail.tail.dropWhile p).tail.tail)
  have h2 := length_tail_le ((r.tail.tail.dropWhile p).tail)
  have h3 := length_tail_le (r.tail.tail.dropWhile p)
  have h4 := length_dropWhile_le' p r.tail.tail
  have h5 := length_tail_le r.tail
  have h6 := length_tail_le r
  simp only [List.length_cons]
  omega

/-- The backtick character (code-span delimiter, written by code point to
keep the source free of literal backticks). -/
def backtickChar : Char := Char.ofNat 96

/-- `.replace(/\$\$[^$]+\$\$/g, '[EQUATION]')` (line 268): a display-math
span needs two opening dollars, nonempty dollar-free content, and two closing
dollars; anywhere the pattern fails, scanning advances one character. -/
def replaceDisplayEq (l : List Char) : List Char :=
  match l with
  | [] => []
  | c1 :: rest1 =>
    if c1 = '$' ∧ rest1.head? = some '$' then
      if rest1.tail.takeWhile (fun c => c ≠ '$') ≠ [] ∧
          (rest1.tail.dropWhile (fun c => c ≠ '$')).head? = some '$' ∧
          (rest1.tail.dropWhile (fun c => c ≠ '$')).tail.head? = some '$' then
        "[EQUATION]".data ++
          replaceDisplayEq (rest1.tail.dropWhile (fun c => c ≠ '$')).tail.tail
      else c1 :: replaceDisplayEq rest1
    else c1 :: replaceDisplayEq rest1
termination_by l.length
decreasing_by
  all_goals first
    | apply dec_tail_drop_2
    | simp

/-- `.replace(/\$[^$]+\$/g, '[EQUATION]')` (line 269). -/
def replaceInlineEq (l : List Char) : List Char :=
  match l with
  | [] => []
  | c1 :: rest =>
    if c1 = '$' then
      if rest.takeWhile (fun c => c ≠ '$') ≠ [] ∧
          (rest.dropWhile (fun c => c ≠ '$')).head? = some '$' then
        "[EQUATION]".data ++
          replaceInlineEq (rest.dropWhile (fun c => c ≠ '$')).tail
      else c1 :: replaceInlineEq rest
    else c1 :: replaceInlineEq rest
termination_by l.length
decreasing_by
  all_goals first
    | apply dec_drop_1
    | simp

/-- `.replace(/```[^`]+```/g, '[CODE_BLOCK]')` (line 275, delimiters written
via `backtickChar`). -/
def replaceCodeBlocks (l : List Char) : List Char :=
  match l with
  | [] => []
  | c1 :: rest1 =>
    if c1 = backtickChar ∧ rest1.head? = some backtickChar ∧
        rest1.tail.head? = some backtickChar then
      if rest1.tail.tail.takeWhile (fun c => c ≠ backtickChar) ≠ [] ∧
          (rest1.tail.tail.dropWhile (fun c => c ≠ backtickChar)).head? =
            some backtickChar ∧
          (rest1.tail.tail.dropWhile (fun c => c ≠ backtickChar)).tail.head? =
            some backtickChar ∧
          (rest1.tail.tail.dropWhile
            (fun c => c ≠ backtickChar)).tail.tail.head? = some backtickChar then
        "[CODE_BLOCK]".data ++
          replaceCodeBlocks
            (rest1.tail.tail.dropWhile (fun c => c ≠ backtickChar)).tail.tail.tail
      else c1 :: replaceCodeBlocks rest1
    else c1 :: replaceCodeBlocks rest1
termination_by l.length
decreasing_by
  all_goals first
    | apply dec_tail2_drop_3
    | simp

/-- `.replace(/`[^`]+`/g, '[CODE]')` (line 276). -/
def replaceInlineCode (l : List Char) : List Char :=
  match l with
  | [] => []
  | c1 :: rest =>
    if c1 = backtickChar then
      if rest.takeWhile (fun c => c ≠ backtickChar) ≠ [] ∧
          (rest.dropWhile (fun c => c ≠ backtickChar)).head? = some backtickChar then
        "[CODE]".data ++
          replaceInlineCode (rest.dropWhile (fun c => c ≠ backtickChar)).tail
      else c1 :: replaceInlineCode rest
    else c1 :: replaceInlineCode rest
termination_by l.length
decreasing_by
  all_goals first
    | apply dec_drop_1
    | simp

/-- Case-insensitive prefix test (for `/^(...)/i`). -/
def startsWithCI : List Char → List Char → Bool
  | [], _ => true
  | _ :: _, [] => false
  | p :: ps, c :: cs => (p.toLower = c.toLower) && startsWithCI ps cs

/-- `/^(Acknowledgements|References|Bibliography|Appendix)/i` (line 283). -/
def sectionBlacklisted (l : List Char) : Bool :=
  startsWithCI "Acknowledgements".data l || startsWithCI "References".data l ||
    startsWithCI "Bibliography".data l || startsWithCI "Appendix".data l

/-- `preprocessText` (summarize.ts lines 248-289): basic cleaning, then —
guided by the (fixed) document analysis — citation removal, equation and
code-span replacement, and for research documents the section filter that
drops blacklisted sections and rejoins the rest with blank lines. -/
def preprocessText (text : List Char) (analysis : DocumentAnalysis) : List Char :=
  let processed := cleanBasic text
  let processed :=
    if analysis.type = DocType.research || analysis.hasCitations then
      removeYearParenCitations (removeEtAlCitations (removeNumCitations processed))
    else processed
  let processed :=
    if analysis.hasEquations then replaceInlineEq (replaceDisplayEq processed)
    else processed
  let processed :=
    if analysis.hasCode then replaceInlineCode (replaceCodeBlocks processed)
    else processed
  let processed :=
    if analysis.type = DocType.research then
      List.intercalate ['\n', '\n']
        ((splitSections processed).filter (fun sec => !sectionBlacklisted sec))
    else processed
  processed


/-! Idempotence infrastructure for the basic cleaning chain. -/

/-- `dropWhile` is the identity when the head (if any) falsifies the
predicate. -/
lemma dropWhile_eq_self_of_head {α : Type} (p : α → Bool) (l : List α)
    (h : ∀ c, l.head? = some c → p c = false) : l.dropWhile p = l := by
  cases l with
  | nil => rfl
  | cons a t => rw [List.dropWhile_cons_of_neg (by simp [h a rfl])]

/-- Adjacent characters are never both whitespace. -/
def ChainNoWs (l : List Char) : Prop :=
  List.Chain' (fun a b => ¬(isJsWs a = true ∧ isJsWs b = true)) l

/-- The head of the whitespace-collapsed text is the head of the input with
whitespace mapped to a space. -/
lemma collapseWs_head? (l : List Char) :
    (collapseWs l).head? = l.head?.map (fun c => if isJsWs c then ' ' else c) := by
  cases l with
  | nil => simp [collapseWs]
  | cons c cs =>
    rw [collapseWs]
    split <;> simp_all

/-- Every whitespace character surviving `collapseWs` is a space. -/
lemma collapseWs_ws_is_space :
    ∀ l : List Char, ∀ c ∈ collapseWs l, isJsWs c = true → c = ' ' := by
  intro l
  induction l using collapseWs.induct with
  | case1 => intro c hc; simp [collapseWs] at hc
  | case2 c cs h ih =>
    intro d hd hw
    rw [collapseWs, if_pos h] at hd
    rcases List.mem_cons.mp hd with rfl | hd
    · rfl
    · exact ih d hd hw
  | case3 c cs h ih =>
    intro d hd hw
    rw [collapseWs, if_neg h] at hd
    rcases List.mem_cons.mp hd with rfl | hd
    · exact absurd hw (by simpa using h)
    · exact ih d hd hw

/-- `collapseWs` leaves no two adjacent whitespace characters. -/
lemma collapseWs_chain : ∀ l : List Char, ChainNoWs (collapseWs l) := by
  intro l
  induction l using collapseWs.induct with
  | case1 => simp [ChainNoWs, collapseWs]
  | case2 c cs h ih =>
    rw [collapseWs, if_pos h]
    rw [ChainNoWs, List.chain'_cons']
    refine ⟨?_, ih⟩
    intro y hy
    rw [collapseWs_head?] at hy
    rcases hd : (cs.dropWhile isJsWs).head? with - | d
    · rw [hd] at hy; simp at hy
    · rw [hd] at hy
      simp only [Option.map_some', Option.mem_def, Option.some.injEq] at hy
      have hdw : isJsWs d = false := by
        rcases hh : cs.dropWhile isJsWs with - | ⟨e, t⟩
        · rw [hh] at hd
          simp at hd
        · rw [hh] at hd
          simp only [List.head?_cons, Option.some.injEq] at hd
          subst hd
          exact dropWhile_cons_head_eq_false isJsWs cs e t hh
      intro hcontra
      rw [← hy] at hcontra
      simp [hdw] at hcontra
  | case3 c cs h ih =>
    rw [collapseWs, if_neg h]
    rw [ChainNoWs, List.chain'_cons']
    refine ⟨?_, ih⟩
    intro y hy
    intro hcontra
    exact h hcontra.1

/-- `collapseNl` is the identity on newline-free text. -/
lemma collapseNl_id_of_no_nl :
    ∀ l : List Char, (∀ c ∈ l, c ≠ '\r' ∧ c ≠ '\n') → collapseNl l = l := by
  intro l
  induction l using collapseNl.induct with
  | case1 =>
    intro hmem
    rw [collapseNl]
  | case2 c cs h h2 ih =>
    intro hmem
    exact absurd h (by
      have := hmem c (List.mem_cons_self c cs)
      rcases this with ⟨h1, h2⟩
      rintro (rfl | rfl) <;> simp_all)
  | case3 c cs h h2 ih =>
    intro hmem
    exact absurd h (by
      have := hmem c (List.mem_cons_self c cs)
      rcases this with ⟨h1, h2⟩
      rintro (rfl | rfl) <;> simp_all)
  | case4 c cs h ih =>
    intro hmem
    rw [collapseNl]
    rw [if_neg h]
    rw [ih (fun d hd => hmem d (List.mem_cons_of_mem c hd))]

/-- `collapseWs` is the identity on already-normalized text. -/
lemma collapseWs_id :
    ∀ l : List Char, (∀ c ∈ l, isJsWs c = true → c = ' ') → ChainNoWs l →
      collapseWs l = l := by
  intro l
  induction l with
  | nil =>
    intro _ _
    rw [collapseWs]
  | cons c cs ih =>
    intro hmem hchain
    by_cases hc : isJsWs c = true
    · rw [collapseWs, if_pos hc]
      have hcs : cs.dropWhile isJsWs = cs := by
        apply dropWhile_eq_self_of_head
        intro d hd
        have := (List.chain'_cons'.mp hchain).1 d (by simpa using hd)
        by_contra hcon
        exact this ⟨hc, by simpa using hcon⟩
      rw [hcs]
      rw [ih (fun d hd hw => hmem d (List.mem_cons_of_mem c hd) hw)
        (List.Chain'.tail hchain)]
      rw [hmem c (List.mem_cons_self c cs) hc]
    · rw [collapseWs, if_neg hc]
      rw [ih (fun d hd hw => hmem d (List.mem_cons_of_mem c hd) hw)
        (List.Chain'.tail hchain)]


/-- A nonempty suffix has the same last element. -/
lemma getLast?_of_suffix {α : Type} {l' l : List α} (h : l' <:+ l)
    (hne : l' ≠ []) : l'.getLast? = l.getLast? := by
  obtain ⟨t, rfl⟩ := h
  exact (List.getLast?_append_of_ne_nil t hne).symm

/-- `ChainNoWs` is preserved by reversal (the relation is symmetric). -/
lemma chainNoWs_reverse {l : List Char} (h : ChainNoWs l) : ChainNoWs l.reverse := by
  rw [ChainNoWs, List.chain'_reverse]
  exact h.imp (fun a b hab hc => hab ⟨hc.2, hc.1⟩)

/-- Members of the trimmed text are members of the text. -/
lemma trimChars_subset {l : List Char} : ∀ c ∈ trimChars l, c ∈ l := by
  intro c hc
  unfold trimChars at hc
  rw [List.mem_reverse] at hc
  have h1 := (List.dropWhile_suffix (l := (l.dropWhile isJsWs).reverse)
    isJsWs).subset hc
  rw [List.mem_reverse] at h1
  exact (List.dropWhile_suffix isJsWs).subset h1

/-- `ChainNoWs` survives trimming. -/
lemma trimChars_chain {l : List Char} (h : ChainNoWs l) :
    ChainNoWs (trimChars l) := by
  unfold trimChars
  have h1 : ChainNoWs (l.dropWhile isJsWs) := h.suffix (List.dropWhile_suffix _)
  have h2 : ChainNoWs (l.dropWhile isJsWs).reverse := chainNoWs_reverse h1
  have h3 : ChainNoWs ((l.dropWhile isJsWs).reverse.dropWhile isJsWs) :=
    h2.suffix (List.dropWhile_suffix _)
  exact chainNoWs_reverse h3

/-- The first character of trimmed text is never whitespace. -/
lemma trimChars_head_not_ws {l : List Char} :
    ∀ c, (trimChars l).head? = some c → isJsWs c = false := by
  intro c hc
  unfold trimChars at hc
  rw [List.head?_reverse] at hc
  rcases hz : (l.dropWhile isJsWs).reverse.dropWhile isJsWs with - | ⟨e, t⟩
  · rw [hz] at hc
    simp at hc
  · have hlast : ((l.dropWhile isJsWs).reverse.dropWhile isJsWs).getLast? =
        ((l.dropWhile isJsWs).reverse).getLast? :=
      getLast?_of_suffix (List.dropWhile_suffix _) (by rw [hz]; simp)
    rw [hlast, List.getLast?_reverse] at hc
    rcases hh : l.dropWhile isJsWs with - | ⟨e2, t2⟩
    · rw [hh] at hc
      simp at hc
    · rw [hh] at hc
      simp only [List.head?_cons, Option.some.injEq] at hc
      subst hc
      exact dropWhile_cons_head_eq_false isJsWs l e2 t2 hh

/-- The last character of trimmed text is never whitespace. -/
lemma trimChars_getLast_not_ws {l : List Char} :
    ∀ c, (trimChars l).getLast? = some c → isJsWs c = false := by
  intro c hc
  unfold trimChars at hc
  rw [List.getLast?_reverse] at hc
  rcases hh : (l.dropWhile isJsWs).reverse.dropWhile isJsWs with - | ⟨e, t⟩
  · rw [hh] at hc
    simp at hc
  · rw [hh] at hc
    simp only [List.head?_cons, Option.some.injEq] at hc
    subst hc
    exact dropWhile_cons_head_eq_false isJsWs _ e t hh

/-- Trimming already-trimmed text does nothing. -/
lemma trimChars_id {l : List Char}
    (hh : ∀ c, l.head? = some c → isJsWs c = false)
    (hl : ∀ c, l.getLast? = some c → isJsWs c = false) : trimChars l = l := by
  unfold trimChars
  rw [dropWhile_eq_self_of_head isJsWs l hh]
  rw [dropWhile_eq_self_of_head isJsWs l.reverse (by
    intro c hc
    rw [List.head?_reverse] at hc
    exact hl c hc)]
  exact List.reverse_reverse l

/-- The basic cleaning chain is idempotent. -/
lemma cleanBasic_idem (l : List Char) : cleanBasic (cleanBasic l) = cleanBasic l := by
  have hA : ∀ c ∈ cleanBasic l, isJsWs c = true → c = ' ' := by
    intro c hc hw
    exact collapseWs_ws_is_space (collapseNl l) c (trimChars_subset c hc) hw
  have hB : ChainNoWs (cleanBasic l) :=
    trimChars_chain (collapseWs_chain (collapseNl l))
  have hNoNl : ∀ c ∈ cleanBasic l, c ≠ '\r' ∧ c ≠ '\n' := by
    intro c hc
    constructor <;> rintro rfl <;>
      exact absurd (hA _ hc (by decide)) (by decide)
  show trimChars (collapseWs (collapseNl (cleanBasic l))) = cleanBasic l
  rw [collapseNl_id_of_no_nl (cleanBasic l) hNoNl]
  rw [collapseWs_id (cleanBasic l) hA hB]
  exact trimChars_id
    (fun c hc => trimChars_head_not_ws c hc)
    (fun c hc => trimChars_getLast_not_ws c hc)

/-- The analysis of a general-typed document in which the citation marker
regex fired (`hasCitations = true`), as `analyzeDocument` produces for a
plain text containing a numbered citation like `[1]`. -/
def citationAnalysis : DocumentAnalysis :=
  { type := DocType.general, complexity := Complexity.medium,
    length := LengthBucket.short, hasEquations := false, hasCitations := true,
    hasCode := false, domain := Domain.general_business }

/-- C10 counterexample: with the analysis held fixed (general type, citations
detected), normalizing `"a [1]"` once yields `"a "` — the numbered-citation
removal runs after the trim and leaves a trailing space — and normalizing a
second time trims that space away: `normalize (normalize T) ≠ normalize T`. -/
theorem preprocessText_not_idempotent_counterexample :
    preprocessText ['a', ' ', '[', '1', ']'] citationAnalysis = ['a', ' '] ∧
    preprocessText ['a', ' '] citationAnalysis = ['a'] ∧
    preprocessText (preprocessText ['a', ' ', '[', '1', ']'] citationAnalysis)
        citationAnalysis ≠
      preprocessText ['a', ' ', '[', '1', ']'] citationAnalysis := by
  have h1 : preprocessText ['a', ' ', '[', '1', ']'] citationAnalysis =
      ['a', ' '] := by
    simp [preprocessText, citationAnalysis, cleanBasic, collapseNl, collapseWs,
      trimChars, isJsWs, removeNumCitations, parseCite1, parseNumGroups,
      removeEtAlCitations, parseCite2, expectWord, expectWs, isWordChar,
      removeYearParenCitations, parseCite3, nlRun, List.takeWhile,
      List.dropWhile, Char.isDigit, Char.isAlpha]
  have h2 : preprocessText ['a', ' '] citationAnalysis = ['a'] := by
    simp [preprocessText, citationAnalysis, cleanBasic, collapseNl, collapseWs,
      trimChars, isJsWs, removeNumCitations, parseCite1, parseNumGroups,
      removeEtAlCitations, parseCite2, expectWord, expectWs, isWordChar,
      removeYearParenCitations, parseCite3, nlRun, List.takeWhile,
      List.dropWhile, Char.isDigit, Char.isAlpha]
  refine ⟨h1, h2, ?_⟩
  rw [h1, h2]
  simp

/-- C10 amended: with the document analysis held fixed, normalization is
idempotent whenever the analysis enables no content-aware pass — type not
research, no citations, no equations, no code — because the basic cleaning
chain (newline collapsing, whitespace collapsing, trimming) is idempotent;
with citation removal enabled it is not (see the counterexample: removal can
expose whitespace that only the second pass trims). -/
theorem preprocessText_idempotent_without_flags (t : List Char)
    (a : DocumentAnalysis) (hty : a.type ≠ DocType.research)
    (hcit : a.hasCitations = false) (heq : a.hasEquations = false)
    (hcode : a.hasCode = false) :
    preprocessText (preprocessText t a) a = preprocessText t a := by
  have hpre : ∀ u, preprocessText u a = cleanBasic u := by
    intro u
    unfold preprocessText
    dsimp only
    rw [if_neg (by simp [hty]), if_neg (by simp [hcode]),
      if_neg (by simp [heq]), if_neg (by simp [hty, hcit])]
  rw [hpre, hpre]
  exact cleanBasic_idem t

/-- Witness for C10's amended theorem at a concrete input with collapsible
whitespace. -/
theorem preprocessText_idempotent_without_flags_witness :
    (generalAnalysis.type ≠ DocType.research ∧
      generalAnalysis.hasCitations = false ∧
      generalAnalysis.hasEquations = false ∧
      generalAnalysis.hasCode = false) ∧
    preprocessText (preprocessText [' ', 'a', '\n', '\n', 'b'] generalAnalysis)
        generalAnalysis =
      preprocessText [' ', 'a', '\n', '\n', 'b'] generalAnalysis :=
  ⟨⟨by decide, by decide, by decide, by decide⟩,
    preprocessText_idempotent_without_flags [' ', 'a', '\n', '\n', 'b']
      generalAnalysis (by decide) (by decide) (by decide) (by decide)⟩

end Summarize
